import Mathlib

/-!
Shallow embedding of the EtherCAT motor-control loop of this repository
(src/motor.py and src/motor_safe.py), restricted to the pure control logic
that the verified claims are about: the per-cycle command drain, the batch
trajectory engine, the sync-error and fault guards, the CiA 402
statusword-to-controlword decoder, the per-axis trajectory interpolation
step, and the millimetre/pulse unit conversions.

Modelling conventions:
* encoder pulses, targets and offsets are `Int` (the code reads them with
  struct.unpack "<i");
* status and control words are `Nat` (struct.unpack "<H", 16-bit);
* real-valued quantities computed by the code in floating point
  (millimetres, durations, timestamps, thresholds) are modelled as exact
  rationals `Rat`, except the raised-cosine interpolation, which needs
  `Real.cos` and is modelled over `Real`;
* Python `int(x)` is truncation toward zero, modelled by `ratTrunc` on
  rationals and `pyIntR` on reals;
* within one control cycle, repeated reads of a slave input buffer return
  the same bytes (the buffer changes only at `receive_processdata`), so a
  cycle phase takes the positions/statuses it reads as a fixed function
  of the slave index: `preActual` for reads before the PDO exchange
  (command drain, batch engine) and `postActual`/`statuses` for reads
  after it (sync guard, fault guard, per-axis step).

Print statements and the `last_status` field (used only for change-detection
logging) are omitted: they do not affect the control state.
-/

/-- CiA 402 controlword constant (motor.py / motor_safe.py). -/
def CW_SHUTDOWN : ℕ := 0x0006

/-- CiA 402 controlword constant (motor.py / motor_safe.py). -/
def CW_SWITCH_ON : ℕ := 0x0007

/-- CiA 402 controlword constant (motor.py / motor_safe.py). -/
def CW_ENABLE_OPERATION : ℕ := 0x000F

/-- CiA 402 controlword constant (motor.py / motor_safe.py). -/
def CW_FAULT_RESET : ℕ := 0x0080

/-- Encoder counts per revolution (motor.py line 30, motor_safe.py line 24). -/
def PULSES_PER_REVOLUTION : ℕ := 8388608

/-- X-axis millimetres per revolution (motor.py line 33, motor_safe.py line 25). -/
def x_axis_mm_per_rev : ℚ := 11.9993131404

/-- Z-axis millimetres per revolution (motor.py line 34, motor_safe.py line 26). -/
def z_axis_mm_per_rev : ℚ := 5.99965657019

/-- The axis tag of a drive slot: the code stores the string "x" or "z". -/
inductive Axis where
  | x : Axis
  | z : Axis
deriving DecidableEq, Repr

/-- `x_axis_mm_per_rev if state["axis"] == "x" else z_axis_mm_per_rev`
(motor.py line 247, motor_safe.py line 237). -/
def mmPerRev : Axis → ℚ
  | Axis.x => x_axis_mm_per_rev
  | Axis.z => z_axis_mm_per_rev

/-- An active trajectory record: the dict
`{start, end, duration, start_time}` built at motor.py lines 297-302 and
motor_safe.py lines 265-270.  `endPos` embeds the key `end` (a Lean keyword). -/
structure Traj where
  start : ℤ
  endPos : ℤ
  duration : ℚ
  startTime : ℚ
deriving DecidableEq, Repr

/-- One drive slot of `local_motor_states` (motor_safe.py lines 43-49):
target pulses, origin offset, axis tag and the optional trajectory.
The `mode` field (constant "csp") and the logging-only `last_status`
field are omitted. -/
structure MotorState where
  targetPulse : ℤ
  offset : ℤ
  axis : Axis
  trajectory : Option Traj
deriving DecidableEq, Repr

/-- A command drained from the ingress queue in the main loop of the safe
variant (motor_safe.py lines 200-223).  `SET_VELOCITY`/`SET_ACCEL` are
consumed only by the pre-start drain and are not handled by the main
loop, so they are not part of this type. -/
inductive Cmd where
  | stopAll : Cmd
  | setAxis : ℕ → Axis → Cmd
  | setOrigin : ℕ → Cmd
  | moveToMM : ℕ → ℚ → Cmd
  | resetSyncError : Cmd
deriving DecidableEq, Repr

/-- Discriminator: is this command `RESET_SYNC_ERROR`? -/
def isResetCmd : Cmd → Bool
  | Cmd.resetSyncError => true
  | _ => false

/-- Discriminator: is this command `SET_ORIGIN` (for any slave)? -/
def isSetOriginCmd : Cmd → Bool
  | Cmd.setOrigin _ => true
  | _ => false

/-- Python `int(q)`: truncation toward zero. -/
def ratTrunc (q : ℚ) : ℤ := if 0 ≤ q then ⌊q⌋ else ⌈q⌉

/-- The relative pulse target of a move-to command as the code computes it:
`revolutions = target_mm / mm_per_rev;
 target_pulse_relative = int(revolutions * PULSES_PER_REVOLUTION * 2)`
(motor.py lines 248-254, motor_safe.py lines 238-239). -/
def mmToPulsesCode (mm : ℚ) (a : Axis) : ℤ :=
  ratTrunc (mm / mmPerRev a * (PULSES_PER_REVOLUTION : ℚ) * 2)

/-- `mm_to_pulses` as the specification words it in section 4.8:
round to nearest.  Declared only to be compared with `mmToPulsesCode`,
the definition taken from the source. -/
def mmToPulsesSpec (mm : ℚ) (a : Axis) : ℤ :=
  round (mm / mmPerRev a * (PULSES_PER_REVOLUTION : ℚ) * 2)

/-- Absolute pulse target of a move-to command:
`target_pulse_absolute = target_pulse_relative + state["offset"]`
(motor.py line 255, motor_safe.py line 240). -/
def batchTarget (st : MotorState) (mm : ℚ) : ℤ :=
  mmToPulsesCode mm st.axis + st.offset

/-- Natural duration of one axis of a batch:
`velocity_pulse_per_sec = (configured_velocity / 60.0) * PULSES_PER_REVOLUTION * 2;
 duration = distance / velocity_pulse_per_sec if velocity_pulse_per_sec > 0 else 1.0`
with `configured_velocity = slave_configs.get(i, {}).get("velocity", 60)`
(motor.py lines 272-274, motor_safe.py lines 247-249). -/
def batchDuration (cfg : Option ℚ) (dist : ℤ) : ℚ :=
  let rpm := cfg.getD 60
  let vel := rpm / 60 * ((PULSES_PER_REVOLUTION : ℚ) * 2)
  if 0 < vel then (dist : ℚ) / vel else 1

/-- Python `max` over a nonempty list (returns 0 on the empty list, which
the code never evaluates: the batch block runs only when the batch is
nonempty). -/
def listMax : List ℚ → ℚ
  | [] => 0
  | a :: as => as.foldl max a

/-- The sync-error threshold in pulses, from the bus constructor:
`int((max_sync_error_mm / z_axis_mm_per_rev) * PULSES_PER_REVOLUTION * 2)`
(motor_safe.py lines 559-561). -/
def maxSyncErrorPulse (mm : ℚ) : ℤ :=
  ratTrunc (mm / z_axis_mm_per_rev * ((PULSES_PER_REVOLUTION : ℚ) * 2))

/-- The state carried through one command drain of the safe main loop:
the drive slots, the sticky sync-error flag, the `is_running` flag and
the `trajectory_commands` batch accumulated for this cycle
(motor_safe.py lines 197-223). -/
structure DrainState where
  states : ℕ → MotorState
  syncError : Bool
  running : Bool
  batch : List (ℕ × ℚ)

/-- One step of the command drain of the safe variant
(motor_safe.py lines 200-223).  `preActual i` is the actual position the
code reads with `_read_actual_position` while handling `SET_ORIGIN`;
a cleared `running` flag models the `break` after `STOP_ALL` (the
remaining queue entries are not acted on). -/
def drainStep (preActual : ℕ → ℤ) (s : DrainState) (c : Cmd) : DrainState :=
  if s.running = false then s
  else
    match c with
    | Cmd.stopAll => { s with running := false }
    | Cmd.setAxis i a =>
        { s with states := Function.update s.states i { s.states i with axis := a } }
    | Cmd.setOrigin i =>
        { s with
          states := Function.update s.states i
            { s.states i with offset := preActual i, targetPulse := preActual i },
          syncError := false }
    | Cmd.moveToMM i mm =>
        if s.syncError then s else { s with batch := s.batch ++ [(i, mm)] }
    | Cmd.resetSyncError => { s with syncError := false }

/-- Draining a whole queue: fold of `drainStep` over the queued commands
in FIFO order (motor_safe.py lines 200-223). -/
def drain (preActual : ℕ → ℤ) (s : DrainState) (cmds : List Cmd) : DrainState :=
  cmds.foldl (drainStep preActual) s

/-- One entry of `trajectory_data` (motor.py lines 276-284,
motor_safe.py lines 251-258): commanded slave index, absolute pulse
target, natural duration. -/
def batchEntry (preActual : ℕ → ℤ) (cfg : ℕ → Option ℚ)
    (states : ℕ → MotorState) (im : ℕ × ℚ) : ℕ × ℤ × ℚ :=
  let tgt := batchTarget (states im.1) im.2
  (im.1, tgt, batchDuration (cfg im.1) |tgt - preActual im.1|)

/-- `max_duration = max(max(traj["duration"] for traj in trajectory_data), 0.1)`
(motor.py line 287, motor_safe.py line 260). -/
def batchMaxDur (preActual : ℕ → ℤ) (cfg : ℕ → Option ℚ)
    (states : ℕ → MotorState) (batch : List (ℕ × ℚ)) : ℚ :=
  max (listMax ((batch.map (batchEntry preActual cfg states)).map
    (fun d => d.2.2))) (1/10)

/-- Installing one trajectory record of a batch
(motor.py lines 291-302, motor_safe.py lines 262-270). -/
def applyTraj (preActual : ℕ → ℤ) (T now : ℚ) (acc : ℕ → MotorState)
    (d : ℕ × ℤ × ℚ) : ℕ → MotorState :=
  Function.update acc d.1
    { acc d.1 with trajectory := some ⟨preActual d.1, d.2.1, T, now⟩ }

/-- The batch trajectory engine (motor_safe.py lines 226-271; the same
logic is motor.py lines 232-302, whose guard lacks only the sync-error
conjunct that is always false there).  For every drained move command it
computes the absolute target and natural duration, takes the common
duration `max(max(durations), 0.1)`, and installs for every commanded
slave a fresh trajectory starting at its just-read actual position with
the shared duration and the shared monotonic timestamp `now`.  The
preliminary loop of the code that sets `trajectory = None` for commanded
slaves is subsumed: each commanded slave receives its new record. -/
def processBatch (preActual : ℕ → ℤ) (cfg : ℕ → Option ℚ) (now : ℚ)
    (s : DrainState) : ℕ → MotorState :=
  if s.batch = [] ∨ s.syncError = true then s.states
  else
    (s.batch.map (batchEntry preActual cfg s.states)).foldl
      (applyTraj preActual (batchMaxDur preActual cfg s.states s.batch) now)
      s.states

/-- Offset-corrected relative position used by the sync monitor:
`positions[i] - local_motor_states[i]["offset"]` (motor_safe.py lines 288-291). -/
def relPos (postActual : ℕ → ℤ) (states : ℕ → MotorState) (i : ℕ) : ℤ :=
  postActual i - (states i).offset

/-- `any_moving`: some slave has an active trajectory
(motor_safe.py lines 294-297). -/
def anyMoving (n : ℕ) (states : ℕ → MotorState) : Bool :=
  (List.range n).any fun i => (states i).trajectory.isSome

/-- The adjacent-pair scan of the sync monitor: some pair `(i, i+1)` with
`i` in `range(num_slaves - 1)` exceeds the threshold
(motor_safe.py lines 302-305). -/
def syncTrip (n : ℕ) (rel : ℕ → ℤ) (thr : ℤ) : Bool :=
  (List.range (n - 1)).any fun i => thr < |rel i - rel (i + 1)|

/-- The sync-error guard of the safe variant (motor_safe.py lines 283-329),
run right after the PDO exchange.  When at least two slaves exist, no
sync error is latched yet, some axis is moving, and some adjacent pair of
offset-corrected positions differs by more than the threshold, it sets
the sticky flag and stops every moving axis: trajectory cleared and
target latched to the just-read actual position.  The code `break`s at
the first offending pair, but the emergency stop it performs is global,
so the result only depends on the existence of an offending pair. -/
def syncCheck (postActual : ℕ → ℤ) (thr : ℤ) (n : ℕ)
    (states : ℕ → MotorState) (syncError : Bool) : (ℕ → MotorState) × Bool :=
  if 2 ≤ n ∧ syncError = false then
    if anyMoving n states && syncTrip n (relPos postActual states) thr then
      (fun j =>
        if j < n ∧ (states j).trajectory.isSome then
          { states j with trajectory := none, targetPulse := postActual j }
        else states j,
       true)
    else (states, syncError)
  else (states, syncError)

/-- The fault scan: some slave shows statusword bit 3 while holding an
active trajectory (motor.py lines 321-328, motor_safe.py lines 339-346). -/
def faultCheck (statuses : ℕ → ℕ) (n : ℕ) (states : ℕ → MotorState) : Bool :=
  (List.range n).any fun i =>
    (statuses i &&& 0x0008 != 0) && (states i).trajectory.isSome

/-- The fault guard (motor.py lines 331-338, motor_safe.py lines 348-355):
when the fault scan fires, every slave with an active trajectory has the
trajectory cleared and its target latched to its just-read actual
position. -/
def faultStop (postActual : ℕ → ℤ) (statuses : ℕ → ℕ) (n : ℕ)
    (states : ℕ → MotorState) : ℕ → MotorState :=
  if faultCheck statuses n states then
    fun j =>
      if j < n ∧ (states j).trajectory.isSome then
        { states j with trajectory := none, targetPulse := postActual j }
      else states j
  else states

/-- The CiA 402 statusword-to-controlword decoder, exactly the if-chain of
the per-axis step (motor.py lines 356-370, motor_safe.py lines 371-385). -/
def controlword (status : ℕ) : ℕ :=
  if status &&& 0x004F = 0x0040 then CW_SHUTDOWN
  else if status &&& 0x006F = 0x0021 then CW_SWITCH_ON
  else if status &&& 0x006F = 0x0023 then CW_ENABLE_OPERATION
  else if status &&& 0x006F = 0x0027 then CW_ENABLE_OPERATION
  else if status &&& 0x0008 ≠ 0 then CW_FAULT_RESET
  else CW_ENABLE_OPERATION

/-- The controlword table of specification section 4.2, read top to bottom
(first matching row wins), with the final "otherwise" row.  Declared only
to be compared with `controlword`, the decoder taken from the source. -/
def specTableControlword (sw : ℕ) : ℕ :=
  if sw &&& 0x004F = 0x0040 then 0x0006
  else if sw &&& 0x006F = 0x0021 then 0x0007
  else if sw &&& 0x006F = 0x0023 then 0x000F
  else if sw &&& 0x006F = 0x0027 then 0x000F
  else if sw &&& 0x0008 ≠ 0 then 0x0080
  else 0x000F

/-- Python `int(x)` on a real value: truncation toward zero. -/
noncomputable def pyIntR (x : ℝ) : ℤ := if 0 ≤ x then ⌊x⌋ else ⌈x⌉

/-- The raised-cosine shape of the interpolator:
`smooth_progress = (1.0 - math.cos(math.pi * progress)) / 2.0`
(motor.py line 413, motor_safe.py line 403). -/
noncomputable def smoothProgress (p : ℝ) : ℝ := (1 - Real.cos (Real.pi * p)) / 2

/-- The emitted target of an interpolation step:
`target_position = int(traj["start"] + (traj["end"] - traj["start"]) * smooth_progress)`
(motor.py line 416, motor_safe.py line 404), with the progress already
clamped. -/
noncomputable def interpTarget (s e : ℤ) (p : ℚ) : ℤ :=
  pyIntR ((s : ℝ) + ((e : ℝ) - (s : ℝ)) * smoothProgress (p : ℝ))

/-- The trajectory part of the per-axis control step
(motor.py lines 355-417 with the permanently disabled `if False` branch
dropped; motor_safe.py lines 371-405).  Returns the controlword written
to the output frame, the target position written to the output frame,
and the updated slot.  `now` is the `time.monotonic()` sample of this
step and `actual` the just-read actual position. -/
noncomputable def axisStep (now : ℚ) (actual : ℤ) (status : ℕ)
    (st : MotorState) : ℕ × ℤ × MotorState :=
  let cw := controlword status
  match st.trajectory with
  | none => (cw, st.targetPulse, st)
  | some traj =>
      if |traj.endPos - actual| < 50000 then
        (cw, traj.endPos, { st with targetPulse := traj.endPos, trajectory := none })
      else
        let progress : ℚ := min ((now - traj.startTime) / traj.duration) 1
        let tgt := interpTarget traj.start traj.endPos progress
        (cw, tgt, { st with targetPulse := tgt })

/-- The moving flag published to the shared state block:
`1 if state["trajectory"] is not None else 0`
(motor.py line 426, motor_safe.py line 413). -/
def movingFlag (st : MotorState) : ℤ := if st.trajectory.isSome then 1 else 0

/-- The millimetre report of `current_position_mm`
(motor.py lines 645-659, motor_safe.py lines 652-660): subtract the
origin offset, divide by the doubled counts-per-revolution, multiply by
the per-axis constant. -/
def pulsesToMm (p off : ℤ) (a : Axis) : ℚ :=
  ((p - off : ℤ) : ℚ) / ((PULSES_PER_REVOLUTION : ℚ) * 2) * mmPerRev a

theorem mmToPulsesCode_one_z : mmToPulsesCode 1 Axis.z = 2796362 := by
  norm_num [mmToPulsesCode, ratTrunc, mmPerRev, z_axis_mm_per_rev, PULSES_PER_REVOLUTION]

theorem mmToPulsesSpec_one_z : mmToPulsesSpec 1 Axis.z = 2796363 := by
  rw [mmToPulsesSpec, round_eq]
  norm_num [mmPerRev, z_axis_mm_per_rev, PULSES_PER_REVOLUTION]

/-! ### Helper lemmas -/

theorem ratTrunc_sub_abs_le (q : ℚ) : |(ratTrunc q : ℚ) - q| ≤ 1 := by
  unfold ratTrunc
  split
  · have h1 := Int.floor_le q
    have h2 := Int.lt_floor_add_one q
    rw [abs_le]
    constructor <;> linarith
  · have h1 := Int.le_ceil q
    have h2 := Int.ceil_lt_add_one q
    rw [abs_le]
    constructor <;> linarith

theorem pyIntR_mono {x y : ℝ} (h : x ≤ y) : pyIntR x ≤ pyIntR y := by
  unfold pyIntR
  by_cases hx : 0 ≤ x
  · rw [if_pos hx, if_pos (hx.trans h)]
    exact Int.floor_mono h
  · rw [if_neg hx]
    by_cases hy : 0 ≤ y
    · rw [if_pos hy]
      have h1 : ⌈x⌉ ≤ 0 := Int.ceil_le.mpr (by exact_mod_cast le_of_not_le hx)
      have h2 : (0 : ℤ) ≤ ⌊y⌋ := Int.floor_nonneg.mpr hy
      omega
    · rw [if_neg hy]
      exact Int.ceil_mono h

theorem le_pyIntR {m : ℤ} {x : ℝ} (h : (m : ℝ) ≤ x) : m ≤ pyIntR x := by
  unfold pyIntR
  split
  · exact Int.le_floor.mpr h
  · have hx := h.trans (Int.le_ceil x)
    exact_mod_cast hx

theorem pyIntR_le {M : ℤ} {x : ℝ} (h : x ≤ (M : ℝ)) : pyIntR x ≤ M := by
  unfold pyIntR
  split
  · have := Int.floor_mono h
    rwa [Int.floor_intCast] at this
  · exact Int.ceil_le.mpr h

theorem smoothProgress_nonneg (p : ℝ) : 0 ≤ smoothProgress p := by
  unfold smoothProgress
  have := Real.cos_le_one (Real.pi * p)
  linarith

theorem smoothProgress_le_one (p : ℝ) : smoothProgress p ≤ 1 := by
  unfold smoothProgress
  have := Real.neg_one_le_cos (Real.pi * p)
  linarith

theorem smoothProgress_mono {p q : ℝ} (hp : 0 ≤ p) (hpq : p ≤ q) (hq : q ≤ 1) :
    smoothProgress p ≤ smoothProgress q := by
  unfold smoothProgress
  have hpi := Real.pi_pos
  have h1 : 0 ≤ Real.pi * p := by positivity
  have h2 : Real.pi * q ≤ Real.pi := by nlinarith
  have h3 : Real.pi * p ≤ Real.pi * q := by nlinarith
  have := Real.cos_le_cos_of_nonneg_of_le_pi h1 h2 h3
  linarith

theorem foldl_applyTraj_not_mem (pre : ℕ → ℤ) (T now : ℚ) :
    ∀ (l : List (ℕ × ℤ × ℚ)) (acc : ℕ → MotorState) (j : ℕ),
      j ∉ l.map Prod.fst →
      l.foldl (applyTraj pre T now) acc j = acc j := by
  intro l
  induction l with
  | nil => intro acc j _; rfl
  | cons d ds ih =>
    intro acc j h
    simp only [List.map_cons, List.mem_cons, not_or] at h
    rw [List.foldl_cons, ih _ _ h.2]
    exact Function.update_noteq h.1 _ acc

theorem foldl_applyTraj_mem (pre : ℕ → ℤ) (T now : ℚ) :
    ∀ (l : List (ℕ × ℤ × ℚ)), (l.map Prod.fst).Nodup →
      ∀ (acc : ℕ → MotorState) (i : ℕ) (t : ℤ) (d : ℚ), (i, t, d) ∈ l →
      l.foldl (applyTraj pre T now) acc i =
        { acc i with trajectory := some ⟨pre i, t, T, now⟩ } := by
  intro l
  induction l with
  | nil => intro _ acc i t d h; exact absurd h (List.not_mem_nil _)
  | cons hd tl ih =>
    intro hnd acc i t d hmem
    simp only [List.map_cons, List.nodup_cons] at hnd
    rcases List.mem_cons.mp hmem with heq | htl
    · subst heq
      rw [List.foldl_cons,
        foldl_applyTraj_not_mem pre T now tl _ i hnd.1]
      unfold applyTraj
      rw [Function.update_same]
    · have hi : i ∈ tl.map Prod.fst :=
        List.mem_map_of_mem Prod.fst htl
      have hne : i ≠ hd.1 := fun h => hnd.1 (h ▸ hi)
      rw [List.foldl_cons]
      have hacc : applyTraj pre T now acc hd i = acc i :=
        Function.update_noteq hne _ acc
      rw [ih hnd.2 _ i t d htl, hacc]

theorem batch_map_fst (pre : ℕ → ℤ) (cfg : ℕ → Option ℚ)
    (states : ℕ → MotorState) (batch : List (ℕ × ℚ)) :
    (batch.map (batchEntry pre cfg states)).map Prod.fst = batch.map Prod.fst := by
  rw [List.map_map]
  rfl

theorem processBatch_empty (pre : ℕ → ℤ) (cfg : ℕ → Option ℚ) (now : ℚ)
    (s : DrainState) (h : s.batch = []) :
    processBatch pre cfg now s = s.states := by
  unfold processBatch
  rw [if_pos (Or.inl h)]

theorem processBatch_not_mem (pre : ℕ → ℤ) (cfg : ℕ → Option ℚ) (now : ℚ)
    (s : DrainState) (j : ℕ) (h : j ∉ s.batch.map Prod.fst) :
    processBatch pre cfg now s j = s.states j := by
  unfold processBatch
  split
  · rfl
  · rw [foldl_applyTraj_not_mem]
    rwa [batch_map_fst]

theorem processBatch_mem (pre : ℕ → ℤ) (cfg : ℕ → Option ℚ) (now : ℚ)
    (s : DrainState) (i : ℕ) (mm : ℚ)
    (hsync : s.syncError = false) (hnd : (s.batch.map Prod.fst).Nodup)
    (hmem : (i, mm) ∈ s.batch) :
    processBatch pre cfg now s i =
      { s.states i with
        trajectory := some ⟨pre i, batchTarget (s.states i) mm,
          batchMaxDur pre cfg s.states s.batch, now⟩ } := by
  unfold processBatch
  have hne : ¬(s.batch = [] ∨ s.syncError = true) := by
    rintro (h | h)
    · rw [h] at hmem; exact absurd hmem (List.not_mem_nil _)
    · rw [hsync] at h; exact Bool.false_ne_true h
  rw [if_neg hne]
  have hmem2 : (i, batchTarget (s.states i) mm,
      batchDuration (cfg i) |batchTarget (s.states i) mm - pre i|) ∈
      s.batch.map (batchEntry pre cfg s.states) :=
    List.mem_map_of_mem (batchEntry pre cfg s.states) hmem
  have hnd2 : ((s.batch.map (batchEntry pre cfg s.states)).map Prod.fst).Nodup := by
    rwa [batch_map_fst]
  exact foldl_applyTraj_mem pre _ now _ hnd2 s.states i _ _ hmem2

theorem drainStep_not_running (pre : ℕ → ℤ) (s : DrainState) (c : Cmd)
    (hr : s.running = false) : drainStep pre s c = s := by
  unfold drainStep; rw [if_pos hr]

theorem drainStep_stopAll (pre : ℕ → ℤ) (s : DrainState)
    (hr : s.running = true) :
    drainStep pre s Cmd.stopAll = { s with running := false } := by
  unfold drainStep; rw [if_neg (by simp [hr])]

theorem drainStep_setAxis (pre : ℕ → ℤ) (s : DrainState) (i : ℕ) (a : Axis)
    (hr : s.running = true) :
    drainStep pre s (Cmd.setAxis i a) =
      { s with
        states := Function.update s.states i
          ({ s.states i with axis := a }) } := by
  unfold drainStep; rw [if_neg (by simp [hr])]

theorem drainStep_setOrigin (pre : ℕ → ℤ) (s : DrainState) (i : ℕ)
    (hr : s.running = true) :
    drainStep pre s (Cmd.setOrigin i) =
      { s with
        states := Function.update s.states i
          ({ s.states i with offset := pre i, targetPulse := pre i }),
        syncError := false } := by
  unfold drainStep; rw [if_neg (by simp [hr])]

theorem drainStep_moveToMM (pre : ℕ → ℤ) (s : DrainState) (i : ℕ) (mm : ℚ)
    (hr : s.running = true) :
    drainStep pre s (Cmd.moveToMM i mm) =
      if s.syncError then s else { s with batch := s.batch ++ [(i, mm)] } := by
  unfold drainStep; rw [if_neg (by simp [hr])]

theorem drainStep_reset (pre : ℕ → ℤ) (s : DrainState)
    (hr : s.running = true) :
    drainStep pre s Cmd.resetSyncError = { s with syncError := false } := by
  unfold drainStep; rw [if_neg (by simp [hr])]

theorem drain_sticky (pre : ℕ → ℤ) :
    ∀ (cmds : List Cmd) (s : DrainState),
      s.syncError = true → s.batch = [] →
      (∀ c ∈ cmds, isResetCmd c = false ∧ isSetOriginCmd c = false) →
      (drain pre s cmds).syncError = true ∧ (drain pre s cmds).batch = [] ∧
      ∀ j, ((drain pre s cmds).states j).trajectory = (s.states j).trajectory := by
  intro cmds
  induction cmds with
  | nil => intro s hs hb _; exact ⟨hs, hb, fun _ => rfl⟩
  | cons c cs ih =>
    intro s hs hb hall
    have hc := hall c (List.mem_cons_self c cs)
    have hcs := fun c' hc' => hall c' (List.mem_cons_of_mem c hc')
    have step : (drainStep pre s c).syncError = true ∧
        (drainStep pre s c).batch = [] ∧
        ∀ j, ((drainStep pre s c).states j).trajectory = (s.states j).trajectory := by
      by_cases hr : s.running = false
      · rw [drainStep_not_running pre s c hr]; exact ⟨hs, hb, fun _ => rfl⟩
      · have hr2 : s.running = true := by
          cases h : s.running
          · exact absurd h hr
          · rfl
        cases c with
        | stopAll => rw [drainStep_stopAll pre s hr2]; exact ⟨hs, hb, fun _ => rfl⟩
        | setAxis i a =>
          rw [drainStep_setAxis pre s i a hr2]
          refine ⟨hs, hb, fun j => ?_⟩
          by_cases hj : j = i
          · subst hj; simp [Function.update_same]
          · simp [Function.update_noteq hj]
        | setOrigin i => exact absurd hc.2 (by simp [isSetOriginCmd])
        | moveToMM i mm =>
          rw [drainStep_moveToMM pre s i mm hr2, if_pos hs]
          exact ⟨hs, hb, fun _ => rfl⟩
        | resetSyncError => exact absurd hc.1 (by simp [isResetCmd])
    have := ih (drainStep pre s c) step.1 step.2.1 hcs
    exact ⟨this.1, this.2.1, fun j => (this.2.2 j).trans (step.2.2 j)⟩

theorem batchMaxDur_formula (pre : ℕ → ℤ) (cfg : ℕ → Option ℚ)
    (states : ℕ → MotorState) (batch : List (ℕ × ℚ))
    (hrpm : ∀ im ∈ batch, 0 < (cfg im.1).getD 60) :
    batchMaxDur pre cfg states batch =
      max (listMax (batch.map (fun im =>
        (|batchTarget (states im.1) im.2 - pre im.1| : ℤ) /
          ((cfg im.1).getD 60 / 60 * ((PULSES_PER_REVOLUTION : ℚ) * 2))))) (1/10) := by
  unfold batchMaxDur
  congr 1
  congr 1
  rw [List.map_map]
  refine List.map_congr_left (fun im hmem => ?_)
  show batchDuration (cfg im.1) _ = _
  unfold batchDuration
  have hpos : 0 < (cfg im.1).getD 60 / 60 * ((PULSES_PER_REVOLUTION : ℚ) * 2) := by
    have h1 : (0 : ℚ) < (cfg im.1).getD 60 / 60 := div_pos (hrpm im hmem) (by norm_num)
    have h2 : (0 : ℚ) < (PULSES_PER_REVOLUTION : ℚ) * 2 := by
      norm_num [PULSES_PER_REVOLUTION]
    exact mul_pos h1 h2
  simp only [hpos, if_pos]

/-! ### Claim theorems -/

/-- C1, counterexample to the claim as stated.  The claim says that once
the sync-error flag is set, every `MOVE_TO_MM` drained from the command
channel is discarded and starts no trajectory until a `RESET_SYNC_ERROR`
command is processed.  The code also clears the flag on `SET_ORIGIN`
(motor_safe.py line 212): starting from a flagged state, the queue
`[SET_ORIGIN 0, MOVE_TO_MM 0 1]` contains no `RESET_SYNC_ERROR`, yet the
move is honoured (the drained batch is nonempty). -/
theorem C1_counterexample :
    ¬ (∀ (pre : ℕ → ℤ) (cfg : ℕ → Option ℚ) (now : ℚ) (s : DrainState)
        (cmds : List Cmd),
        s.syncError = true → s.batch = [] → Cmd.resetSyncError ∉ cmds →
        (drain pre s cmds).batch = [] ∧
        processBatch pre cfg now (drain pre s cmds) = (drain pre s cmds).states) := by
  intro h
  have h0 := h (fun _ => 0) (fun _ => none) 0
      ⟨fun _ => ⟨0, 0, Axis.x, none⟩, true, true, []⟩
      [Cmd.setOrigin 0, Cmd.moveToMM 0 1] rfl rfl (by decide)
  have hb : (drain (fun _ => 0)
      ⟨fun _ => ⟨0, 0, Axis.x, none⟩, true, true, []⟩
      [Cmd.setOrigin 0, Cmd.moveToMM 0 1]).batch = [(0, 1)] := by
    simp [drain, drainStep]
  rw [hb] at h0
  exact absurd h0.1 (by simp)

/-- C1 (amended): in the safe variant, once the sync-error flag is set,
every `MOVE_TO_MM` drained from the command channel is discarded and
starts no trajectory until a `RESET_SYNC_ERROR` or `SET_ORIGIN` command
is processed; after a `RESET_SYNC_ERROR`, a subsequent move-to is
honoured again and starts a fresh trajectory. -/
theorem C1_sync_error_stickiness :
    (∀ (pre : ℕ → ℤ) (cfg : ℕ → Option ℚ) (now : ℚ) (s : DrainState)
        (cmds : List Cmd),
      s.syncError = true → s.batch = [] →
      (∀ c ∈ cmds, isResetCmd c = false ∧ isSetOriginCmd c = false) →
      (drain pre s cmds).syncError = true ∧
      (drain pre s cmds).batch = [] ∧
      processBatch pre cfg now (drain pre s cmds) = (drain pre s cmds).states ∧
      ∀ j, ((drain pre s cmds).states j).trajectory = (s.states j).trajectory) ∧
    (∀ (pre : ℕ → ℤ) (cfg : ℕ → Option ℚ) (now : ℚ) (s : DrainState)
        (i : ℕ) (mm : ℚ),
      s.running = true → s.batch = [] →
      (drain pre s [Cmd.resetSyncError, Cmd.moveToMM i mm]).batch = [(i, mm)] ∧
      (drain pre s [Cmd.resetSyncError, Cmd.moveToMM i mm]).syncError = false ∧
      processBatch pre cfg now (drain pre s [Cmd.resetSyncError, Cmd.moveToMM i mm]) i =
        { s.states i with
          trajectory := some ⟨pre i, batchTarget (s.states i) mm,
            batchMaxDur pre cfg s.states [(i, mm)], now⟩ }) := by
  constructor
  · intro pre cfg now s cmds hs hb hall
    obtain ⟨h1, h2, h3⟩ := drain_sticky pre cmds s hs hb hall
    exact ⟨h1, h2, processBatch_empty pre cfg now _ h2, h3⟩
  · intro pre cfg now s i mm hr hb
    have h2 : drain pre s [Cmd.resetSyncError, Cmd.moveToMM i mm] =
        { s with syncError := false, batch := [(i, mm)] } := by
      simp [drain, drainStep, hr, hb]
    rw [h2]
    refine ⟨rfl, rfl, ?_⟩
    exact processBatch_mem pre cfg now _ i mm rfl (by simp) (by simp)

theorem C1_sync_error_stickiness_witness :
    ((DrainState.mk (fun _ => ⟨0, 0, Axis.x, none⟩) true true []).syncError = true ∧
      (DrainState.mk (fun _ => ⟨0, 0, Axis.x, none⟩) true true []).batch = [] ∧
      (∀ c ∈ [Cmd.moveToMM 0 5], isResetCmd c = false ∧ isSetOriginCmd c = false)) ∧
    (drain (fun _ => 0) (DrainState.mk (fun _ => ⟨0, 0, Axis.x, none⟩) true true [])
      [Cmd.moveToMM 0 5]).batch = [] :=
  ⟨⟨rfl, rfl, by decide⟩,
    (C1_sync_error_stickiness.1 (fun _ => 0) (fun _ => none) 0
      (DrainState.mk (fun _ => ⟨0, 0, Axis.x, none⟩) true true [])
      [Cmd.moveToMM 0 5] rfl rfl (by decide)).2.1⟩

/-- C2: in the safe variant, processing `SET_ORIGIN` for a single slave
latches that slave's origin offset and target pulses to the just-read
actual position and clears the global sync-error flag
(motor_safe.py lines 207-213), so after a `SET_ORIGIN` a subsequent
move-to is honoured again without any `RESET_SYNC_ERROR`. -/
theorem C2_set_origin_clears_sync_error :
    (∀ (pre : ℕ → ℤ) (s : DrainState) (i : ℕ), s.running = true →
      drainStep pre s (Cmd.setOrigin i) =
        { s with
          states := Function.update s.states i
            ({ s.states i with offset := pre i, targetPulse := pre i }),
          syncError := false }) ∧
    (∀ (pre : ℕ → ℤ) (cfg : ℕ → Option ℚ) (now : ℚ) (s : DrainState)
        (i j : ℕ) (mm : ℚ),
      s.running = true → s.syncError = true → s.batch = [] →
      (drain pre s [Cmd.setOrigin i, Cmd.moveToMM j mm]).syncError = false ∧
      ((drain pre s [Cmd.setOrigin i, Cmd.moveToMM j mm]).states i).offset = pre i ∧
      ((drain pre s [Cmd.setOrigin i, Cmd.moveToMM j mm]).states i).targetPulse = pre i ∧
      (drain pre s [Cmd.setOrigin i, Cmd.moveToMM j mm]).batch = [(j, mm)] ∧
      (processBatch pre cfg now
        (drain pre s [Cmd.setOrigin i, Cmd.moveToMM j mm]) j).trajectory.isSome = true) := by
  constructor
  · intro pre s i hr
    exact drainStep_setOrigin pre s i hr
  · intro pre cfg now s i j mm hr _ hb
    have h2 : drain pre s [Cmd.setOrigin i, Cmd.moveToMM j mm] =
        { s with
          states := Function.update s.states i
            ({ s.states i with offset := pre i, targetPulse := pre i }),
          syncError := false,
          batch := [(j, mm)] } := by
      simp [drain, drainStep, hr, hb]
    rw [h2]
    refine ⟨rfl, by simp [Function.update_same], by simp [Function.update_same], rfl, ?_⟩
    rw [processBatch_mem pre cfg now _ j mm rfl (by simp) (by simp)]
    rfl

theorem C2_set_origin_clears_sync_error_witness :
    ((DrainState.mk (fun _ => ⟨7, 0, Axis.z, none⟩) true true []).running = true ∧
      (DrainState.mk (fun _ => ⟨7, 0, Axis.z, none⟩) true true []).syncError = true ∧
      (DrainState.mk (fun _ => ⟨7, 0, Axis.z, none⟩) true true []).batch = []) ∧
    (drain (fun _ => 3) (DrainState.mk (fun _ => ⟨7, 0, Axis.z, none⟩) true true [])
      [Cmd.setOrigin 0, Cmd.moveToMM 1 5]).syncError = false :=
  ⟨⟨rfl, rfl, rfl⟩,
    (C2_set_origin_clears_sync_error.2 (fun _ => 3) (fun _ => none) 0
      (DrainState.mk (fun _ => ⟨7, 0, Axis.z, none⟩) true true [])
      0 1 5 rfl rfl rfl).1⟩

/-- C3: in the safe variant with at least two slaves, when no sync error
is yet flagged and some axis has an active trajectory, if some adjacent
pair of offset-corrected positions differs by more than the threshold
derived from `max_sync_error_mm` via the Z-axis kinematic constant, then
in that same cycle the sync-error flag is set, every active trajectory
is cleared, and each aborted axis latches its target pulses to its
just-read actual position (motor_safe.py lines 283-329 and 558-561). -/
theorem C3_sync_error_guard :
    ∀ (post : ℕ → ℤ) (q : ℚ) (n : ℕ) (states : ℕ → MotorState),
      2 ≤ n →
      anyMoving n states = true →
      (∃ i, i + 1 < n ∧
        maxSyncErrorPulse q < |relPos post states i - relPos post states (i + 1)|) →
      (syncCheck post (maxSyncErrorPulse q) n states false).2 = true ∧
      ∀ j, j < n →
        ((syncCheck post (maxSyncErrorPulse q) n states false).1 j).trajectory = none ∧
        ((states j).trajectory.isSome = true →
          ((syncCheck post (maxSyncErrorPulse q) n states false).1 j).targetPulse = post j) ∧
        ((states j).trajectory = none →
          (syncCheck post (maxSyncErrorPulse q) n states false).1 j = states j) := by
  intro post q n states hn hmov hex
  obtain ⟨i, hi, hgt⟩ := hex
  have htrip : syncTrip n (relPos post states) (maxSyncErrorPulse q) = true := by
    unfold syncTrip
    rw [List.any_eq_true]
    exact ⟨i, List.mem_range.mpr (by omega), by simpa using hgt⟩
  have hcond : (anyMoving n states &&
      syncTrip n (relPos post states) (maxSyncErrorPulse q)) = true := by
    rw [hmov, htrip]; rfl
  have hout : syncCheck post (maxSyncErrorPulse q) n states false =
      (fun j =>
        if j < n ∧ (states j).trajectory.isSome then
          { states j with trajectory := none, targetPulse := post j }
        else states j,
       true) := by
    unfold syncCheck
    rw [if_pos ⟨hn, rfl⟩, if_pos hcond]
  have houtj : ∀ j, (syncCheck post (maxSyncErrorPulse q) n states false).1 j =
      if j < n ∧ (states j).trajectory.isSome then
        { states j with trajectory := none, targetPulse := post j }
      else states j := by
    intro j; rw [hout]
  refine ⟨by rw [hout], fun j hj => ?_⟩
  by_cases hj2 : (states j).trajectory.isSome = true
  · refine ⟨?_, fun _ => ?_, fun h0 => ?_⟩
    · rw [houtj j, if_pos ⟨hj, hj2⟩]
    · rw [houtj j, if_pos ⟨hj, hj2⟩]
    · rw [h0] at hj2; exact absurd hj2 (by simp)
  · have h0 : (states j).trajectory = none := by
      cases h : (states j).trajectory
      · rfl
      · rw [h] at hj2; exact absurd rfl hj2
    refine ⟨?_, fun h1 => absurd h1 hj2, fun _ => ?_⟩
    · rw [houtj j, if_neg (fun hc => hj2 hc.2), h0]
    · rw [houtj j, if_neg (fun hc => hj2 hc.2)]

theorem C3_sync_error_guard_witness :
    (2 ≤ 2 ∧
      anyMoving 2 (fun i => if i = 0 then
        ⟨0, 0, Axis.x, some ⟨0, 9999999, 1, 0⟩⟩ else ⟨0, 0, Axis.x, none⟩) = true ∧
      (∃ i, i + 1 < 2 ∧
        maxSyncErrorPulse (1/2) <
          |relPos (fun k => if k = 0 then 0 else 10000000)
              (fun i => if i = 0 then
                ⟨0, 0, Axis.x, some ⟨0, 9999999, 1, 0⟩⟩ else ⟨0, 0, Axis.x, none⟩) i -
            relPos (fun k => if k = 0 then 0 else 10000000)
              (fun i => if i = 0 then
                ⟨0, 0, Axis.x, some ⟨0, 9999999, 1, 0⟩⟩ else ⟨0, 0, Axis.x, none⟩) (i + 1)|)) ∧
    (syncCheck (fun k => if k = 0 then 0 else 10000000) (maxSyncErrorPulse (1/2)) 2
      (fun i => if i = 0 then
        ⟨0, 0, Axis.x, some ⟨0, 9999999, 1, 0⟩⟩ else ⟨0, 0, Axis.x, none⟩) false).2 = true :=
  ⟨⟨by norm_num, rfl,
    ⟨0, by norm_num, by
      norm_num [maxSyncErrorPulse, ratTrunc, z_axis_mm_per_rev,
        PULSES_PER_REVOLUTION, relPos]⟩⟩,
    (C3_sync_error_guard (fun k => if k = 0 then 0 else 10000000) (1/2) 2
      (fun i => if i = 0 then
        ⟨0, 0, Axis.x, some ⟨0, 9999999, 1, 0⟩⟩ else ⟨0, 0, Axis.x, none⟩)
      (by norm_num) rfl
      ⟨0, by norm_num, by
        norm_num [maxSyncErrorPulse, ratTrunc, z_axis_mm_per_rev,
          PULSES_PER_REVOLUTION, relPos]⟩).1⟩

/-- C4: in every cycle, if some axis with an active trajectory shows
statusword bit 3 (`status & 0x0008`), then in that same cycle every axis
with an active trajectory has the trajectory cleared and its target
pulses latched to its just-read actual position
(motor.py lines 320-338, motor_safe.py lines 338-355). -/
theorem C4_fault_guard :
    ∀ (post : ℕ → ℤ) (statuses : ℕ → ℕ) (n : ℕ) (states : ℕ → MotorState),
      (∃ i, i < n ∧ statuses i &&& 0x0008 ≠ 0 ∧ (states i).trajectory.isSome = true) →
      ∀ j, j < n →
        ((faultStop post statuses n states j).trajectory = none ∧
         ((states j).trajectory.isSome = true →
           (faultStop post statuses n states j).targetPulse = post j) ∧
         ((states j).trajectory = none →
           faultStop post statuses n states j = states j)) := by
  intro post statuses n states hex j hj
  obtain ⟨i, hi, hbit, htrj⟩ := hex
  have hchk : faultCheck statuses n states = true := by
    unfold faultCheck
    rw [List.any_eq_true]
    refine ⟨i, List.mem_range.mpr hi, ?_⟩
    rw [htrj, Bool.and_true]
    exact bne_iff_ne.mpr hbit
  have houtj : ∀ j, faultStop post statuses n states j =
      if j < n ∧ (states j).trajectory.isSome then
        { states j with trajectory := none, targetPulse := post j }
      else states j := by
    intro k
    unfold faultStop
    rw [if_pos hchk]
  by_cases hj2 : (states j).trajectory.isSome = true
  · refine ⟨?_, fun _ => ?_, fun h0 => ?_⟩
    · rw [houtj j, if_pos ⟨hj, hj2⟩]
    · rw [houtj j, if_pos ⟨hj, hj2⟩]
    · rw [h0] at hj2; exact absurd hj2 (by simp)
  · have h0 : (states j).trajectory = none := by
      cases h : (states j).trajectory
      · rfl
      · rw [h] at hj2; exact absurd rfl hj2
    refine ⟨?_, fun h1 => absurd h1 hj2, fun _ => ?_⟩
    · rw [houtj j, if_neg (fun hc => hj2 hc.2), h0]
    · rw [houtj j, if_neg (fun hc => hj2 hc.2)]

theorem C4_fault_guard_witness :
    ((∃ i, i < 2 ∧ (fun k => if k = 1 then 0x0008 else 0x0027) i &&& 0x0008 ≠ 0 ∧
        ((fun _ => (⟨0, 0, Axis.x, some ⟨0, 100000, 1, 0⟩⟩ : MotorState)) i).trajectory.isSome = true) ∧
      (0 : ℕ) < 2) ∧
    (faultStop (fun _ => 777) (fun k => if k = 1 then 0x0008 else 0x0027) 2
      (fun _ => (⟨0, 0, Axis.x, some ⟨0, 100000, 1, 0⟩⟩ : MotorState)) 0).trajectory = none :=
  ⟨⟨⟨1, by norm_num, by decide, rfl⟩, by norm_num⟩,
    (C4_fault_guard (fun _ => 777) (fun k => if k = 1 then 0x0008 else 0x0027) 2
      (fun _ => (⟨0, 0, Axis.x, some ⟨0, 100000, 1, 0⟩⟩ : MotorState))
      ⟨1, by norm_num, by decide, rfl⟩ 0 (by norm_num)).1⟩

/-- C5: every batch of move-to commands drained in one cycle is
co-started: each commanded axis gets a fresh trajectory from its
just-read actual position to its own absolute target, all trajectories
share the single monotonic timestamp `now` and the single duration
`T = max(max over the batch of |target - current| / ((rpm/60) * COUNTS_PER_REV * 2)), 0.1)`
with the configured rpm defaulting to 60; any previous trajectory of a
commanded axis is replaced, and axes outside the batch are untouched
(motor.py lines 232-302, motor_safe.py lines 226-270). -/
theorem C5_batch_costart :
    ∀ (pre : ℕ → ℤ) (cfg : ℕ → Option ℚ) (now : ℚ) (s : DrainState),
      s.batch ≠ [] → s.syncError = false → (s.batch.map Prod.fst).Nodup →
      (∀ im ∈ s.batch, 0 < (cfg im.1).getD 60) →
      ∃ T : ℚ,
        T = max (listMax (s.batch.map (fun im =>
              (|batchTarget (s.states im.1) im.2 - pre im.1| : ℤ) /
                ((cfg im.1).getD 60 / 60 * ((PULSES_PER_REVOLUTION : ℚ) * 2))))) (1/10) ∧
        (1/10 : ℚ) ≤ T ∧
        (∀ im ∈ s.batch,
          processBatch pre cfg now s im.1 =
            { s.states im.1 with
              trajectory := some ⟨pre im.1, batchTarget (s.states im.1) im.2, T, now⟩ }) ∧
        (∀ j, j ∉ s.batch.map Prod.fst → processBatch pre cfg now s j = s.states j) := by
  intro pre cfg now s _ hsync hnd hrpm
  refine ⟨batchMaxDur pre cfg s.states s.batch,
    batchMaxDur_formula pre cfg s.states s.batch hrpm, le_max_right _ _, ?_, ?_⟩
  · intro im him
    exact processBatch_mem pre cfg now s im.1 im.2 hsync hnd (by simpa using him)
  · intro j hj
    exact processBatch_not_mem pre cfg now s j hj

theorem C5_batch_costart_witness :
    ((DrainState.mk (fun _ => ⟨0, 0, Axis.x, none⟩) false true [(0, 10)]).batch ≠ [] ∧
      (DrainState.mk (fun _ => ⟨0, 0, Axis.x, none⟩) false true [(0, 10)]).syncError = false ∧
      ((DrainState.mk (fun _ => ⟨0, 0, Axis.x, none⟩) false true [(0, 10)]).batch.map
        Prod.fst).Nodup) ∧
    (processBatch (fun _ => 0) (fun _ => none) 0
      (DrainState.mk (fun _ => ⟨0, 0, Axis.x, none⟩) false true [(0, 10)]) 0).trajectory.isSome
      = true := by
  refine ⟨⟨by simp, rfl, by simp⟩, ?_⟩
  obtain ⟨T, _, _, h3, _⟩ := C5_batch_costart (fun _ => 0) (fun _ => none) 0
    (DrainState.mk (fun _ => ⟨0, 0, Axis.x, none⟩) false true [(0, 10)])
    (by simp) rfl (by simp) (by intro im _; norm_num [Option.getD_none])
  rw [h3 (0, 10) (by simp)]
  rfl

/-- C6: the controlword written each cycle is the pure function
`controlword` of the just-read statusword, it agrees with the table of
specification section 4.2 for every 16-bit statusword, and every
statusword with bit 3 set decodes to Fault-Reset 0x0080
(motor.py lines 355-370, motor_safe.py lines 371-385). -/
theorem C6_controlword_decoding :
    (∀ sw : ℕ, sw < 65536 → controlword sw = specTableControlword sw) ∧
    (∀ sw : ℕ, sw < 65536 → sw &&& 0x0008 ≠ 0 → controlword sw = CW_FAULT_RESET) ∧
    (∀ (now : ℚ) (actual : ℤ) (status : ℕ) (st : MotorState),
      (axisStep now actual status st).1 = controlword status) := by
  have hpure : ∀ (now : ℚ) (actual : ℤ) (status : ℕ) (st : MotorState),
      (axisStep now actual status st).1 = controlword status := by
    intro now actual status st
    cases htr : st.trajectory with
    | none => simp only [axisStep, htr]
    | some traj =>
      simp only [axisStep, htr]
      split <;> rfl
  refine ⟨?_, ?_, hpure⟩
  · intro sw _
    rfl
  · intro sw _ h8
    have k : ∀ m : ℕ, m &&& 8 = 8 → sw &&& m &&& 8 = sw &&& 8 := fun m hm => by
      rw [Nat.land_assoc, hm]
    have h1 : ¬(sw &&& 0x004F = 0x0040) := by
      intro h
      apply h8
      have e := k 0x004F (by decide)
      rw [h] at e
      rw [← e]
      decide
    have h2 : ¬(sw &&& 0x006F = 0x0021) := by
      intro h
      apply h8
      have e := k 0x006F (by decide)
      rw [h] at e
      rw [← e]
      decide
    have h3 : ¬(sw &&& 0x006F = 0x0023) := by
      intro h
      apply h8
      have e := k 0x006F (by decide)
      rw [h] at e
      rw [← e]
      decide
    have h4 : ¬(sw &&& 0x006F = 0x0027) := by
      intro h
      apply h8
      have e := k 0x006F (by decide)
      rw [h] at e
      rw [← e]
      decide
    unfold controlword
    rw [if_neg h1, if_neg h2, if_neg h3, if_neg h4, if_pos h8]

theorem C6_controlword_decoding_witness :
    ((0x0608 : ℕ) < 65536 ∧ (0x0608 : ℕ) &&& 0x0008 ≠ 0) ∧
    controlword 0x0608 = CW_FAULT_RESET ∧
    controlword 0x0608 = specTableControlword 0x0608 :=
  ⟨⟨by norm_num, by decide⟩,
    C6_controlword_decoding.2.1 0x0608 (by norm_num) (by decide),
    C6_controlword_decoding.1 0x0608 (by norm_num)⟩

/-- C7: whenever a trajectory is active and the just-read actual position
is within 50 000 pulses of its end, that per-axis step latches the
emitted target and the stored target pulses to exactly `end` and clears
the trajectory (so the published moving flag becomes 0); while the error
is at least 50 000 pulses the trajectory stays active and the emitted
target comes from the interpolation; a cleared trajectory stays cleared
by this step, so a trajectory is never resumed
(motor.py lines 375-417, motor_safe.py lines 389-405). -/
theorem C7_position_based_completion :
    (∀ (now : ℚ) (actual : ℤ) (status : ℕ) (st : MotorState) (traj : Traj),
      st.trajectory = some traj →
      (|traj.endPos - actual| < 50000 →
        axisStep now actual status st =
          (controlword status, traj.endPos,
            { st with targetPulse := traj.endPos, trajectory := none }) ∧
        movingFlag { st with targetPulse := traj.endPos, trajectory := none } = 0) ∧
      (50000 ≤ |traj.endPos - actual| →
        axisStep now actual status st =
          (controlword status,
            interpTarget traj.start traj.endPos
              (min ((now - traj.startTime) / traj.duration) 1),
            { st with targetPulse := interpTarget traj.start traj.endPos (min ((now - traj.startTime) / traj.duration) 1) }) ∧
        ({ st with targetPulse := interpTarget traj.start traj.endPos (min ((now - traj.startTime) / traj.duration) 1) } : MotorState).trajectory
          = some traj)) ∧
    (∀ (now : ℚ) (actual : ℤ) (status : ℕ) (st : MotorState),
      st.trajectory = none →
      axisStep now actual status st = (controlword status, st.targetPulse, st)) := by
  constructor
  · intro now actual status st traj htr
    constructor
    · intro hlt
      refine ⟨?_, rfl⟩
      simp only [axisStep, htr]
      rw [if_pos hlt]
    · intro hge
      refine ⟨?_, htr⟩
      simp only [axisStep, htr]
      rw [if_neg (not_lt.mpr hge)]
  · intro now actual status st htr
    simp only [axisStep, htr]

theorem C7_position_based_completion_witness :
    ((MotorState.mk 0 0 Axis.x (some ⟨0, 120, 1, 0⟩)).trajectory = some ⟨0, 120, 1, 0⟩ ∧
      |(120 : ℤ) - 100| < 50000) ∧
    axisStep 0 100 0 (MotorState.mk 0 0 Axis.x (some ⟨0, 120, 1, 0⟩)) =
      (controlword 0, 120, MotorState.mk 120 0 Axis.x none) :=
  ⟨⟨rfl, by decide⟩,
    ((C7_position_based_completion.1 0 100 0
      (MotorState.mk 0 0 Axis.x (some ⟨0, 120, 1, 0⟩)) ⟨0, 120, 1, 0⟩ rfl).1
      (by decide)).1⟩

/-- C8: the raised-cosine interpolated target always lies between the
trajectory start and end, and it is monotone with respect to the clamped
progress: nondecreasing when `end >= start` and nonincreasing when
`end <= start`; the progress the code computes,
`min(elapsed/duration, 1)`, lies in `[0, 1]` whenever the elapsed time
is nonnegative and the duration positive
(motor.py lines 403-417, motor_safe.py lines 400-405). -/
theorem C8_interpolation_range_mono :
    ∀ (s e : ℤ) (p p₁ p₂ el d : ℚ),
      ((min s e : ℤ) ≤ interpTarget s e p ∧ interpTarget s e p ≤ max s e) ∧
      (0 ≤ p₁ → p₁ ≤ p₂ → p₂ ≤ 1 →
        (s ≤ e → interpTarget s e p₁ ≤ interpTarget s e p₂) ∧
        (e ≤ s → interpTarget s e p₂ ≤ interpTarget s e p₁)) ∧
      (0 ≤ el → 0 < d → 0 ≤ min (el / d) 1 ∧ min (el / d) 1 ≤ 1) := by
  intro s e p p₁ p₂ el d
  refine ⟨?_, ?_, ?_⟩
  · have hm0 := smoothProgress_nonneg (p : ℝ)
    have hm1 := smoothProgress_le_one (p : ℝ)
    have hlo : ((min s e : ℤ) : ℝ) ≤ (s : ℝ) + ((e : ℝ) - s) * smoothProgress (p : ℝ) := by
      rcases le_total (s : ℝ) (e : ℝ) with h | h
      · have : ((min s e : ℤ) : ℝ) ≤ (s : ℝ) := by
          push_cast
          exact min_le_left _ _
        nlinarith
      · have : ((min s e : ℤ) : ℝ) ≤ (e : ℝ) := by
          push_cast
          exact min_le_right _ _
        nlinarith
    have hhi : (s : ℝ) + ((e : ℝ) - s) * smoothProgress (p : ℝ) ≤ ((max s e : ℤ) : ℝ) := by
      rcases le_total (s : ℝ) (e : ℝ) with h | h
      · have : (e : ℝ) ≤ ((max s e : ℤ) : ℝ) := by
          push_cast
          exact le_max_right _ _
        nlinarith
      · have : (s : ℝ) ≤ ((max s e : ℤ) : ℝ) := by
          push_cast
          exact le_max_left _ _
        nlinarith
    exact ⟨le_pyIntR hlo, pyIntR_le hhi⟩
  · intro h0 h12 h21
    have hc0 : (0 : ℝ) ≤ (p₁ : ℝ) := by exact_mod_cast h0
    have hc12 : (p₁ : ℝ) ≤ (p₂ : ℝ) := by exact_mod_cast h12
    have hc21 : (p₂ : ℝ) ≤ 1 := by exact_mod_cast h21
    have hsm := smoothProgress_mono hc0 hc12 hc21
    constructor
    · intro hse
      have hse' : (s : ℝ) ≤ (e : ℝ) := by exact_mod_cast hse
      apply pyIntR_mono
      nlinarith
    · intro hes
      have hes' : (e : ℝ) ≤ (s : ℝ) := by exact_mod_cast hes
      apply pyIntR_mono
      nlinarith
  · intro hel hd
    exact ⟨le_min (div_nonneg hel hd.le) zero_le_one, min_le_right _ _⟩

theorem C8_interpolation_range_mono_witness :
    ((0 : ℚ) ≤ 0 ∧ (0 : ℚ) ≤ 1 ∧ (1 : ℚ) ≤ 1 ∧ (0 : ℤ) ≤ 100) ∧
    ((min (0 : ℤ) 100 ≤ interpTarget 0 100 (1/2) ∧ interpTarget 0 100 (1/2) ≤ max 0 100) ∧
      interpTarget 0 100 0 ≤ interpTarget 0 100 1) :=
  ⟨⟨le_refl 0, by norm_num, le_refl 1, by decide⟩,
    (C8_interpolation_range_mono 0 100 (1/2) 0 1 0 1).1,
    ((C8_interpolation_range_mono 0 100 (1/2) 0 1 0 1).2.1 (le_refl 0) (by norm_num)
      (le_refl 1)).1 (by decide)⟩

/-- C9, counterexample to the claim as stated.  The claim says the
relative pulse target of a move-to command equals
`round(mm / mm_per_rev * COUNTS_PER_REV * 2)` (round to nearest, as in
specification section 4.8).  The code computes it with Python `int(...)`
(truncation toward zero, motor.py line 254, motor_safe.py line 239): at
1 mm on the Z axis the exact product is ≈ 2796362.72, so the code
produces 2796362 while round-to-nearest gives 2796363. -/
theorem C9_counterexample :
    batchTarget ⟨0, 0, Axis.z, none⟩ 1 ≠ mmToPulsesSpec 1 Axis.z ∧
    batchTarget ⟨0, 0, Axis.z, none⟩ 1 = 2796362 ∧
    mmToPulsesSpec 1 Axis.z = 2796363 := by
  have hb : batchTarget ⟨0, 0, Axis.z, none⟩ 1 = 2796362 := by
    show mmToPulsesCode 1 Axis.z + 0 = 2796362
    rw [mmToPulsesCode_one_z]
    decide
  refine ⟨?_, hb, mmToPulsesSpec_one_z⟩
  rw [hb, mmToPulsesSpec_one_z]
  decide

/-- C9 (amended): for every move-to-mm command of a drained batch, the
absolute commanded target is the truncation toward zero (floor for
nonnegative values, ceiling for negative ones) of
`mm / mm_per_rev[axis] * COUNTS_PER_REV * 2`, plus the axis origin
offset, with `COUNTS_PER_REV = 8388608`,
`mm_per_rev[x] = 11.9993131404` and `mm_per_rev[z] = 5.99965657019`
(motor.py lines 245-255, motor_safe.py lines 235-240). -/
theorem C9_mm_to_pulse_truncation :
    ∀ (pre : ℕ → ℤ) (cfg : ℕ → Option ℚ) (now : ℚ) (s : DrainState),
      s.syncError = false → (s.batch.map Prod.fst).Nodup →
      ∀ im ∈ s.batch,
        (processBatch pre cfg now s im.1).trajectory =
          some ⟨pre im.1,
            ratTrunc (im.2 / mmPerRev (s.states im.1).axis * (PULSES_PER_REVOLUTION : ℚ) * 2)
              + (s.states im.1).offset,
            batchMaxDur pre cfg s.states s.batch, now⟩ := by
  intro pre cfg now s hs hnd im him
  rw [processBatch_mem pre cfg now s im.1 im.2 hs hnd (by simpa using him)]
  rfl

theorem C9_mm_to_pulse_truncation_witness :
    ((DrainState.mk (fun _ => ⟨0, 0, Axis.z, none⟩) false true [(0, 1)]).syncError = false ∧
      ((DrainState.mk (fun _ => ⟨0, 0, Axis.z, none⟩) false true [(0, 1)]).batch.map
        Prod.fst).Nodup ∧
      ((0 : ℕ), (1 : ℚ)) ∈ (DrainState.mk (fun _ => ⟨0, 0, Axis.z, none⟩) false true
        [(0, 1)]).batch) ∧
    (processBatch (fun _ => 0) (fun _ => none) 0
        (DrainState.mk (fun _ => ⟨0, 0, Axis.z, none⟩) false true [(0, 1)]) 0).trajectory =
      some ⟨0,
        ratTrunc ((1 : ℚ) / mmPerRev Axis.z * (PULSES_PER_REVOLUTION : ℚ) * 2) + 0,
        batchMaxDur (fun _ => 0) (fun _ => none)
          (fun _ => ⟨0, 0, Axis.z, none⟩) [(0, 1)], 0⟩ :=
  ⟨⟨rfl, by simp, by simp⟩,
    C9_mm_to_pulse_truncation (fun _ => 0) (fun _ => none) 0
      (DrainState.mk (fun _ => ⟨0, 0, Axis.z, none⟩) false true [(0, 1)])
      rfl (by simp) (0, 1) (by simp)⟩

/-- C10: for every axis tag and every millimetre value `m` with
`|m| <= 10000`, converting `m` to pulses the way a move-to target is
computed (origin offset 0, truncation toward zero) and back to
millimetres the way `current_position_mm` reports it yields a value
within 1e-6 mm of `m`
(motor.py lines 245-255 and 645-659, motor_safe.py lines 652-660). -/
theorem C10_roundtrip :
    ∀ (a : Axis) (m : ℚ), |m| ≤ 10000 →
      |pulsesToMm (mmToPulsesCode m a) 0 a - m| ≤ 1 / 1000000 := by
  intro a m _
  have hR : 0 < mmPerRev a := by
    cases a <;> norm_num [mmPerRev, x_axis_mm_per_rev, z_axis_mm_per_rev]
  have hP : (0 : ℚ) < (PULSES_PER_REVOLUTION : ℚ) * 2 := by
    norm_num [PULSES_PER_REVOLUTION]
  set x : ℚ := m / mmPerRev a * (PULSES_PER_REVOLUTION : ℚ) * 2 with hx
  have key : ∀ t : ℤ, ((t - 0 : ℤ) : ℚ) / ((PULSES_PER_REVOLUTION : ℚ) * 2) * mmPerRev a - m =
      ((t : ℚ) - x) * (mmPerRev a / ((PULSES_PER_REVOLUTION : ℚ) * 2)) := by
    intro t
    rw [hx]
    push_cast
    field_simp
    ring
  have key2 : pulsesToMm (mmToPulsesCode m a) 0 a - m =
      ((ratTrunc x : ℚ) - x) * (mmPerRev a / ((PULSES_PER_REVOLUTION : ℚ) * 2)) := by
    rw [pulsesToMm]
    exact key (mmToPulsesCode m a)
  rw [key2, abs_mul]
  have h1 : |(ratTrunc x : ℚ) - x| ≤ 1 := ratTrunc_sub_abs_le x
  have h2 : |mmPerRev a / ((PULSES_PER_REVOLUTION : ℚ) * 2)| ≤ 1 / 1000000 := by
    rw [abs_of_pos (div_pos hR hP)]
    rw [div_le_div_iff hP (by norm_num)]
    cases a <;>
      norm_num [mmPerRev, x_axis_mm_per_rev, z_axis_mm_per_rev, PULSES_PER_REVOLUTION]
  calc |(ratTrunc x : ℚ) - x| * |mmPerRev a / ((PULSES_PER_REVOLUTION : ℚ) * 2)|
      ≤ 1 * (1 / 1000000) := by
        exact mul_le_mul h1 h2 (abs_nonneg _) (by norm_num)
    _ = 1 / 1000000 := by norm_num

theorem C10_roundtrip_witness :
    |(1 : ℚ)| ≤ 10000 ∧
    |pulsesToMm (mmToPulsesCode 1 Axis.z) 0 Axis.z - 1| ≤ 1 / 1000000 :=
  ⟨by norm_num, C10_roundtrip Axis.z 1 (by norm_num)⟩
